import Mathlib

/-
Verification development for the rundev repository.

The repository has two implementations of the same tool:
* `rundev.ts` — a promise-based implementation (findNearestPackageJson,
  determinePackageManager over `engines`, getRegistry, ensureNodeVersion,
  ensurePackageManager, install, spawnAsync, a size-based lockfile watcher);
* the rxjs pipeline file (part_000) — findProjectRoot, a regex-driven
  determinePackageManager (explicit `packageManager` token, then `engines`,
  then bundled npm), watchFile with distinctUntilChanged, partitioned error
  branches, and a concat(install, run) process supervisor.

Each definition below is a shallow embedding of one of those source
functions; doc comments name the source symbol.  The external semver
capability (`semver.minVersion(v, \x7bloose: true\x7d)?.version`) is treated as an
opaque parameter `pv : String → Option String` wherever possible, and a small
concrete model `parseVersionModel` is used for concrete evaluations.
-/

namespace Rundev

/-! ## Manifest data model (zod schema `packageJsonSchema` in part_000) -/

/-- The `engines` object of the manifest: optional `node`, `npm`, `yarn`,
`pnpm` string fields (part_000 lines 76-86). -/
structure Engines where
  node : Option String
  npm : Option String
  yarn : Option String
  pnpm : Option String
deriving DecidableEq

/-- A schema-validated manifest: optional `packageManager` string and optional
`engines` object (part_000 lines 76-88). -/
structure PackageJson where
  packageManager : Option String
  engines : Option Engines
deriving DecidableEq

/-- JavaScript truthiness of an optional string field: `undefined` and the
empty string are falsy. -/
def truthy : Option String → Bool
  | none => false
  | some s => s ≠ ""

/-! ## The packageManager regex

part_000 line 103: `/(?<name>npm|pnpm|yarn|bun)@(?<version>\d+\.\d+\.\d+(-\.\+)?)/`
applied with `String.prototype.match` (first, leftmost match).  The four name
alternatives start with pairwise distinct characters (n, p, y, b), so at any
position at most one alternative can match and no backtracking between
alternatives is needed; `\d+` followed by `\.` needs no backtracking either
because `.` is not a digit. -/

/-- Match a literal character list at the front of the input, returning the
rest on success. -/
def matchLit : List Char → List Char → Option (List Char)
  | [], rest => some rest
  | _ :: _, [] => none
  | c :: cs, d :: ds => if c = d then matchLit cs ds else none

/-- Greedy run of decimal digits (the regex `\d*`), returning it and the rest. -/
def takeDigits : List Char → List Char × List Char
  | [] => ([], [])
  | c :: cs =>
    if c.isDigit then
      let (ds, r) := takeDigits cs
      (c :: ds, r)
    else ([], c :: cs)

/-- Match `\d+\.\d+\.\d+`, returning the matched text and the rest. -/
def matchVersionCore (s : List Char) : Option (List Char × List Char) :=
  match takeDigits s with
  | ([], _) => none
  | (d1, r1) =>
    match r1 with
    | '.' :: r2 =>
      match takeDigits r2 with
      | ([], _) => none
      | (d2, r3) =>
        match r3 with
        | '.' :: r4 =>
          match takeDigits r4 with
          | ([], _) => none
          | (d3, r5) => some (d1 ++ '.' :: d2 ++ '.' :: d3, r5)
        | _ => none
    | _ => none

/-- Match the optional literal suffix `(-\.\+)?` (the three characters
`-`, `.`, `+`), greedily. -/
def matchOptSuffix : List Char → List Char × List Char
  | '-' :: '.' :: '+' :: r => (['-', '.', '+'], r)
  | s => ([], s)

/-- Try one name alternative (`npm|pnpm|yarn|bun`, in regex order) at the
current position. -/
def matchName (s : List Char) : Option (List Char × List Char) :=
  match matchLit "npm".data s with
  | some r => some ("npm".data, r)
  | none =>
    match matchLit "pnpm".data s with
    | some r => some ("pnpm".data, r)
    | none =>
      match matchLit "yarn".data s with
      | some r => some ("yarn".data, r)
      | none =>
        match matchLit "bun".data s with
        | some r => some ("bun".data, r)
        | none => none

/-- Match the whole pattern anchored at the current position; on success
return the `name` and `version` capture groups. -/
def matchAt (s : List Char) : Option (List Char × List Char) :=
  match matchName s with
  | none => none
  | some (name, r1) =>
    match r1 with
    | '@' :: r2 =>
      match matchVersionCore r2 with
      | none => none
      | some (ver, r3) =>
        let (suf, _) := matchOptSuffix r3
        some (name, ver ++ suf)
    | _ => none

/-- Unanchored leftmost search, as `String.prototype.match` with a
non-global regex: try each position left to right. -/
def regexSearch : List Char → Option (List Char × List Char)
  | [] => none
  | c :: cs =>
    match matchAt (c :: cs) with
    | some r => some r
    | none => regexSearch cs

/-! ## Version resolution (part_000 lines 90-160) -/

/-- The result type `PackageManagerResult` of part_000.  The source casts the
regex capture with `name as PackageManager`, so at runtime the name is an
arbitrary string (in particular `"bun"` can flow through); the embedding
therefore keeps `String`. -/
inductive PackageManagerResult
  | packageManager (name : String) (version : String)
  | engines (name : String) (version : String)
  | bundled (name : String)
deriving DecidableEq

/-- part_000 `determineNodeVersion`: `parseVersion(packageJson?.engines?.node)`,
where `parseVersion` first checks JS truthiness of its argument and then calls
the semver capability `pv`. -/
def determineNodeVersion (pv : String → Option String) (pj : PackageJson) :
    Option String :=
  match pj.engines with
  | some e =>
    match e.node with
    | some s => if s = "" then none else pv s
    | none => none
  | none => none

/-- One branch of the `engines` fall-through in part_000
`determinePackageManager`: `if (engines.f) \x7b const v = parseVersion(engines.f);
if (v) return \x7b type: "engines", name, version: v \x7d \x7d`.  The guard is JS
truthiness (absent or empty string falsy); the `.engines` constructor is
applied by the caller. -/
def tryEngineField (pv : String → Option String) (nm : String)
    (f : Option String) : Option (String × String) :=
  match f with
  | some s =>
    if s = "" then none
    else
      match pv s with
      | some sv => some (nm, sv)
      | none => none
  | none => none

/-- The `engines` checks of part_000 `determinePackageManager`, in source
order npm, yarn, pnpm (lines 123-154): first field whose guard passes and
whose version parses. -/
def enginesFirst (pv : String → Option String) (e : Engines) :
    Option (String × String) :=
  match tryEngineField pv "npm" e.npm with
  | some r => some r
  | none =>
    match tryEngineField pv "yarn" e.yarn with
    | some r => some r
    | none => tryEngineField pv "pnpm" e.pnpm

/-- part_000 `determinePackageManager` (lines 107-160), parameterised by the
semver capability `pv` standing for
`(v) => try semver.minVersion(v, \x7bloose: true\x7d)?.version catch undefined`:
first the `packageManager` regex match with a parsable captured version,
then the `engines` fields in order, else the bundled npm. -/
def determinePackageManager (pv : String → Option String) (pj : PackageJson) :
    PackageManagerResult :=
  let m := pj.packageManager.bind fun s => regexSearch s.data
  match m.bind fun (n, v) =>
      (pv (String.mk v)).map fun sv => (String.mk n, sv) with
  | some (n, sv) => .packageManager n sv
  | none =>
    match pj.engines with
    | some e =>
      match enginesFirst pv e with
      | some (n, sv) => .engines n sv
      | none => .bundled "npm"
    | none => .bundled "npm"

/-! ## The PACKAGE_MANAGERS table (part_000 lines 56-72) -/

/-- part_000's `PackageManagerSpec` (executableName, lockfile,
installCommand). -/
structure PackageManagerSpec where
  executableName : String
  lockfile : String
  installCommand : String
deriving DecidableEq

/-- part_000 `PACKAGE_MANAGERS`, a record with exactly the keys `npm`,
`yarn`, `pnpm`; indexing it with any other runtime string (as
`PACKAGE_MANAGERS[packageManager.name]` does in storeChanges$) yields
`undefined`, modelled as `none`. -/
def PACKAGE_MANAGERS : String → Option PackageManagerSpec
  | "npm" => some ⟨"npm", "package-lock.json", "install"⟩
  | "yarn" => some ⟨"yarn", "yarn.lock", "install"⟩
  | "pnpm" => some ⟨"pnpm.cjs", "pnpm-lock.yaml", "install"⟩
  | _ => none

/-- Concrete model of the external semver capability on the inputs exercised
in this development: a plain `x.y.z` is its own minimum version, a `>=x.y.z`
range has minimum `x.y.z`, anything else is treated as unparsable.  (The
spec scopes out version resolution beyond "take the minimum satisfying
version"; `semver.minVersion` is third-party code.) -/
def parseVersionModel (s : String) : Option String :=
  match s.data with
  | '>' :: '=' :: rest =>
    match matchVersionCore rest with
    | some (v, []) => some (String.mk v)
    | _ => none
  | l =>
    match matchVersionCore l with
    | some (v, []) => some (String.mk v)
    | _ => none

/-! ## Claim C3: the spec's resolution procedure, and refinement

The spec (§4.3) describes package-manager resolution in its own vocabulary:
provenance "explicit" / "declared" / "default".  The definitions below follow
the spec's words; `c3` proves the source function refines them.  The spec's
"present" for a declared `engines` field is read as a non-empty string (the
JS notion of a present string field). -/

/-- Provenance of a package-manager decision, from the spec's words. -/
inductive Provenance
  | explicit
  | declared
  | default
deriving DecidableEq

/-- A package-manager decision as the spec states it: provenance, name, and
an optional version (the default case carries no explicit version). -/
structure SpecPMDecision where
  provenance : Provenance
  name : String
  version : Option String
deriving DecidableEq

/-- Spec step 1: "an explicit `name@x.y.z` token in a dedicated field,
matched by pattern `(npm|pnpm|yarn|bun)@<semver>`; if present and its version
parses, provenance = explicit". -/
def specExplicitToken (pv : String → Option String) (pj : PackageJson) :
    Option (String × String) :=
  (pj.packageManager.bind fun s => regexSearch s.data).bind fun (n, v) =>
    (pv (String.mk v)).map fun sv => (String.mk n, sv)

/-- A declared per-tool constraint field when present (a present string field
in JS being a non-empty one). -/
def presentField (nm : String) (f : Option String) : List (String × String) :=
  match f with
  | some s => if s = "" then [] else [(nm, s)]
  | none => []

/-- The declared per-tool constraint fields that are present, in the spec's
fixed order npm → yarn → pnpm. -/
def specDeclaredFields (pj : PackageJson) : List (String × String) :=
  match pj.engines with
  | none => []
  | some e =>
    presentField "npm" e.npm ++ presentField "yarn" e.yarn ++
      presentField "pnpm" e.pnpm

/-- Spec step 2: "checked in fixed order npm → yarn → pnpm; first one present
with a parsable minimum version wins, provenance = declared". -/
def specFirstDeclared (pv : String → Option String) (pj : PackageJson) :
    Option (String × String) :=
  (specDeclaredFields pj).findSome? fun (nm, raw) =>
    (pv raw).map fun sv => (nm, sv)

/-- The spec's resolution procedure (§4.3): explicit token, otherwise first
declared field, otherwise the runtime-bundled npm with provenance default. -/
def specResolvePackageManager (pv : String → Option String)
    (pj : PackageJson) : SpecPMDecision :=
  match specExplicitToken pv pj with
  | some (n, v) => ⟨.explicit, n, some v⟩
  | none =>
    match specFirstDeclared pv pj with
    | some (n, v) => ⟨.declared, n, some v⟩
    | none => ⟨.default, "npm", none⟩

/-- Read the source's result type as a spec decision: the source tags
`packageManager` / `engines` / `bundled` correspond to the spec's provenance
explicit / declared / default. -/
def toSpecDecision : PackageManagerResult → SpecPMDecision
  | .packageManager n v => ⟨.explicit, n, some v⟩
  | .engines n v => ⟨.declared, n, some v⟩
  | .bundled n => ⟨.default, n, none⟩

/-! ## Claim C6: findProjectRoot (part_000 lines 38-54)

A directory is modelled as its list of path components, innermost component
first, so `dirname` is `List.tail` and the filesystem root (a directory equal
to its own parent, `isRoot`) is `[]`.  The filesystem is abstracted to the
predicate `hasMarker d` — whether `stat(join(d, filename))` succeeds.
part_000's `expand` loop emits `startPath`, then checks each candidate: if the
stat succeeds the expansion stops and `lastValueFrom` resolves with that last
candidate; if it fails on a root the stream errors (`RootNotFound`); otherwise
the parent is emitted and checked next. -/

/-- part_000 `findProjectRoot` as consumed by `lastValueFrom`: the candidate
that has the marker, or an error if a root is reached without one.  Note the
source checks the marker before the `isRoot` test, so a root that contains
the marker succeeds. -/
def findProjectRoot (hasMarker : List String → Bool) :
    List String → Except Unit (List String)
  | [] => if hasMarker [] then .ok [] else .error ()
  | p :: rest =>
    if hasMarker (p :: rest) then .ok (p :: rest)
    else findProjectRoot hasMarker rest

/-- The candidate directories in search order: the start directory, then each
successive `dirname` ancestor, ending with the filesystem root. -/
def ancestorChain : List String → List (List String)
  | [] => [[]]
  | p :: rest => (p :: rest) :: ancestorChain rest

/-! ## Provisioning store (rundev.ts lines 106-210)

Paths are modelled as lists of segments relative to the user's home
directory, so `path.join` is list append.  The external download/extraction
capability (`fetch` + `tar.x`) is abstracted to a `DownloadOutcome`; its
invocation count is recorded in the traces below. -/

/-- The `PackageManager` union type of rundev.ts: `"npm" | "yarn" | "pnpm"`. -/
inductive PackageManager
  | npm
  | yarn
  | pnpm
deriving DecidableEq

/-- The string a `PackageManager` value denotes. -/
def PackageManager.str : PackageManager → String
  | .npm => "npm"
  | .yarn => "yarn"
  | .pnpm => "pnpm"

/-- The `packageManagers` record of the registry, with one version list per
package manager (`Record<PackageManager, string[]>`). -/
structure PMVersions where
  npm : List String
  yarn : List String
  pnpm : List String
deriving DecidableEq

/-- Read one key of the `packageManagers` record. -/
def PMVersions.get (r : PMVersions) : PackageManager → List String
  | .npm => r.npm
  | .yarn => r.yarn
  | .pnpm => r.pnpm

/-- Write one key of the `packageManagers` record. -/
def PMVersions.set (r : PMVersions) : PackageManager → List String → PMVersions
  | .npm, l => { r with npm := l }
  | .yarn, l => { r with yarn := l }
  | .pnpm, l => { r with pnpm := l }

/-- The rundev.ts `Registry` type: installed node versions and installed
package-manager versions. -/
structure Registry where
  nodeVersions : List String
  packageManagers : PMVersions
deriving DecidableEq

/-- The parsed form of rundev.ts `DEFAULT_REGISTRY`. -/
def emptyRegistry : Registry := ⟨[], ⟨[], [], []⟩⟩

/-- `STORE_PATH`-relative locations (rundev.ts lines 106-109), as segment
lists under the home directory. -/
def NODE_VERSIONS_PATH : List String := [".rundev", "node-versions"]

/-- Segment-list location of the package-managers store. -/
def PACKAGE_MANAGERS_PATH : List String := [".rundev", "package-managers"]

/-- Outcome of the external download/extraction capability for one
invocation: `ok` (fetch succeeded and the archive extracted) or `failed`
(network error, bad archive, filesystem error — anything thrown inside the
`try` of `install`). -/
inductive DownloadOutcome
  | ok
  | failed
deriving DecidableEq

/-- What one provisioning call did: how often the download capability was
invoked, the in-memory registry afterwards, the registry snapshots written
to disk (`fs.writeFile(REGISTRY_PATH, …)`), and whether an error escaped to
the caller. -/
structure ProvisionTrace where
  downloads : Nat
  registry : Registry
  persisted : List Registry
  raised : Bool
deriving DecidableEq

/-- rundev.ts `install(url, pathToSave)` (lines 190-210): the whole body —
`fetch`, the `response.ok` check, `mkdir`, `tar.x` — sits in a `try` whose
`catch` only does `console.error(error)`.  So the capability is invoked once
and no error ever escapes, whatever the outcome. -/
def installRT (outcome : DownloadOutcome) : Nat × Bool :=
  match outcome with
  | .ok => (1, false)
  | .failed => (1, false)

/-- rundev.ts `installNodeVersion` (lines 140-151): run `install`, then push
the version onto `registry.nodeVersions`, then persist the registry and log
`Node version … installed successfully.` -/
def installNodeVersion (outcome : DownloadOutcome) (version : String)
    (reg : Registry) : ProvisionTrace :=
  let (d, raised) := installRT outcome
  if raised then ⟨d, reg, [], true⟩
  else
    let reg' := { reg with nodeVersions := reg.nodeVersions ++ [version] }
    ⟨d, reg', [reg'], false⟩

/-- rundev.ts `ensureNodeVersion` (lines 133-138): install only when the
version is not yet in `registry.nodeVersions`; always return
`NODE_VERSIONS_PATH/version/bin/node`. -/
def ensureNodeVersion (outcome : DownloadOutcome) (version : String)
    (reg : Registry) : ProvisionTrace × List String :=
  (if reg.nodeVersions.contains version then ⟨0, reg, [], false⟩
   else installNodeVersion outcome version reg,
   NODE_VERSIONS_PATH ++ [version, "bin", "node"])

/-- rundev.ts `installPackageManager` (lines 175-188): run `install`, then
push the version onto `registry.packageManagers[name]`, then persist. -/
def installPackageManager (outcome : DownloadOutcome) (name : PackageManager)
    (version : String) (reg : Registry) : ProvisionTrace :=
  let (d, raised) := installRT outcome
  if raised then ⟨d, reg, [], true⟩
  else
    let reg' := { reg with
      packageManagers := reg.packageManagers.set name
        (reg.packageManagers.get name ++ [version]) }
    ⟨d, reg', [reg'], false⟩

/-- The rundev.ts `PackageManagerSpec` (name, version, executableName,
lockfile, installCommand). -/
structure PackageManagerSpecRT where
  name : PackageManager
  version : String
  executableName : String
  lockfile : String
  installCommand : String
deriving DecidableEq

/-- rundev.ts `ensurePackageManager` (lines 153-173): with a spec, install
only when `(name, version)` is not yet recorded and return the store path;
with `undefined` (the default/bundled case) return the runtime-bundled npm
path without touching the registry. -/
def ensurePackageManager (outcome : DownloadOutcome)
    (pm : Option PackageManagerSpecRT) (reg : Registry)
    (nodeVersion : String) : ProvisionTrace × List String :=
  match pm with
  | some spec =>
    (if (reg.packageManagers.get spec.name).contains spec.version then
        ⟨0, reg, [], false⟩
      else installPackageManager outcome spec.name spec.version reg,
     PACKAGE_MANAGERS_PATH ++
       [spec.name.str, spec.version, "bin", spec.executableName])
  | none => (⟨0, reg, [], false⟩,
      NODE_VERSIONS_PATH ++ [nodeVersion, "bin", "npm"])

/-! ## Claim C1: the install-then-run supervisor

part_000 lines 177-186 (`spawnProcess`) and 313-327 (the lockfileChanges$
subscriber built as `concat(spawnProcess(install), spawnProcess(run))`), and
rundev.ts lines 212-227 (`spawnAsync`). -/

/-- What happened to a spawned child process: it exited with a status code,
or the spawn itself failed (the child's `error` event). -/
inductive ProcOutcome
  | exited (code : Nat)
  | spawnFailed
deriving DecidableEq

/-- How an rxjs observable run terminates. -/
inductive ObsTermination
  | completed
  | errored
deriving DecidableEq

/-- part_000 `spawnProcess`: `proc.on("exit", () => subscriber.complete())`
completes on any exit — the exit code is ignored — and
`proc.on("error", err => subscriber.error(err))` errors on spawn failure. -/
def spawnProcessTermination : ProcOutcome → ObsTermination
  | .exited _ => .completed
  | .spawnFailed => .errored

/-- `concat(install, run)` subscribes the run-phase observable exactly when
the install-phase observable completes. -/
def concatStartsRunPhase (installOutcome : ProcOutcome) : Bool :=
  match spawnProcessTermination installOutcome with
  | .completed => true
  | .errored => false

/-- How a JS promise settles (or fails to). -/
inductive PromiseResult
  | resolved
  | rejected
  | pending
deriving DecidableEq

/-- rundev.ts `spawnAsync`: the promise resolves on exit code 0, rejects on
any other exit code, and — having no `error` handler — never settles on a
spawn failure. -/
def spawnAsyncResult : ProcOutcome → PromiseResult
  | .exited 0 => .resolved
  | .exited _ => .rejected
  | .spawnFailed => .pending

/-! ## Claim C5, part 1: JSON serialization of decisions

versionChange$ deduplicates with
`distinctUntilChanged((prev, curr) => JSON.stringify(prev) === JSON.stringify(curr))`
(part_000 lines 222-236).  The stream elements are
`\x7b nodeVersion, packageManager \x7d` objects (or null), so their
`JSON.stringify` image is modelled exactly below — property order is object
insertion order, no whitespace, and strings are escaped as `JSON.stringify`
escapes them (`\"`, `\\`, `\b`, `\t`, `\n`, `\f`, `\r`, and `\u00xx` for the
remaining control characters).  Injectivity of the serialization is proved
via an explicit decoder. -/

/-- A resolved decision as emitted by the versionChange$ map stage:
`\x7b nodeVersion, packageManager \x7d` (part_000 lines 224-229). -/
structure VersionDecision where
  nodeVersion : String
  packageManager : PackageManagerResult
deriving DecidableEq

/-- Lowercase hexadecimal digit. -/
def hexDigitChar (n : Nat) : Char :=
  if n < 10 then Char.ofNat ('0'.toNat + n) else Char.ofNat ('a'.toNat + n - 10)

/-- Numeric value of a lowercase hexadecimal digit. -/
def hexVal (c : Char) : Nat :=
  if c.isDigit then c.toNat - '0'.toNat else c.toNat - 'a'.toNat + 10

/-- `JSON.stringify`'s escape of one character inside a string literal. -/
def escChar (c : Char) : List Char :=
  if c = '"' then ['\\', '"']
  else if c = '\\' then ['\\', '\\']
  else if c = '\x08' then ['\\', 'b']
  else if c = '\t' then ['\\', 't']
  else if c = '\n' then ['\\', 'n']
  else if c = '\x0c' then ['\\', 'f']
  else if c = '\r' then ['\\', 'r']
  else if c.toNat < 32 then
    ['\\', 'u', '0', '0', hexDigitChar (c.toNat / 16), hexDigitChar (c.toNat % 16)]
  else [c]

/-- `JSON.stringify`'s escape of a character sequence. -/
def escape : List Char → List Char
  | [] => []
  | c :: cs => escChar c ++ escape cs

/-- A `JSON.stringify` string literal: quote, escaped content, quote. -/
def quoteStr (s : String) : List Char := '"' :: (escape s.data ++ ['"'])

/-- Decoder for the region of a string literal after its opening quote:
returns the unescaped content and the input after the closing quote. -/
def unquote : List Char → Option (List Char × List Char)
  | [] => none
  | c :: r =>
    if c = '"' then some ([], r)
    else if c = '\\' then
      match r with
      | [] => none
      | e :: r1 =>
        if e = '"' then (unquote r1).map fun p => ('"' :: p.1, p.2)
        else if e = '\\' then (unquote r1).map fun p => ('\\' :: p.1, p.2)
        else if e = 'b' then (unquote r1).map fun p => ('\x08' :: p.1, p.2)
        else if e = 't' then (unquote r1).map fun p => ('\t' :: p.1, p.2)
        else if e = 'n' then (unquote r1).map fun p => ('\n' :: p.1, p.2)
        else if e = 'f' then (unquote r1).map fun p => ('\x0c' :: p.1, p.2)
        else if e = 'r' then (unquote r1).map fun p => ('\r' :: p.1, p.2)
        else if e = 'u' then
          match r1 with
          | '0' :: '0' :: h1 :: h2 :: r2 =>
            (unquote r2).map fun p =>
              (Char.ofNat (16 * hexVal h1 + hexVal h2) :: p.1, p.2)
          | _ => none
        else none
    else (unquote r).map fun p => (c :: p.1, p.2)

/-- Decoder for one `JSON.stringify` string literal at the head of the
input. -/
def decodeQuoted (l : List Char) : Option (String × List Char) :=
  match l with
  | '"' :: r => (unquote r).map fun p => (String.mk p.1, p.2)
  | _ => none

/-- The `JSON.stringify` image of the three result-object shapes of
part_000's `PackageManagerResult` values: property order is insertion order
(`type`, `name`, then `version` when present), no whitespace. -/
def serializePM : PackageManagerResult → List Char
  | .packageManager n v =>
    "\x7b\"type\":\"packageManager\",\"name\":".data ++ quoteStr n ++
      ",\"version\":".data ++ quoteStr v ++ ['\x7d']
  | .engines n v =>
    "\x7b\"type\":\"engines\",\"name\":".data ++ quoteStr n ++
      ",\"version\":".data ++ quoteStr v ++ ['\x7d']
  | .bundled n =>
    "\x7b\"type\":\"bundled\",\"name\":".data ++ quoteStr n ++ ['\x7d']

/-- Decoder for the tail shared by the `packageManager` and `engines`
shapes: quoted name, version key, quoted version, closing brace. -/
def decodeTail (mk : String → String → PackageManagerResult)
    (l : List Char) : Option (PackageManagerResult × List Char) :=
  match decodeQuoted l with
  | some (n, r2) =>
    match matchLit ",\"version\":".data r2 with
    | some r3 =>
      match decodeQuoted r3 with
      | some (v, r4) =>
        match r4 with
        | '\x7d' :: r5 => some (mk n v, r5)
        | _ => none
      | none => none
    | none => none
  | none => none

/-- Decoder for one serialized `PackageManagerResult`.  The three fixed
prefixes diverge at index 9 (`p`/`e`/`b`), so at most one branch applies. -/
def decodePM (l : List Char) : Option (PackageManagerResult × List Char) :=
  match matchLit "\x7b\"type\":\"packageManager\",\"name\":".data l with
  | some r1 => decodeTail .packageManager r1
  | none =>
    match matchLit "\x7b\"type\":\"engines\",\"name\":".data l with
    | some r1 => decodeTail .engines r1
    | none =>
      match matchLit "\x7b\"type\":\"bundled\",\"name\":".data l with
      | some r1 =>
        match decodeQuoted r1 with
        | some (n, r2) =>
          match r2 with
          | '\x7d' :: r3 => some (.bundled n, r3)
          | _ => none
        | none => none
      | none => none

/-- The `JSON.stringify` image of one versionChange$ element
`\x7b nodeVersion, packageManager \x7d`. -/
def serializeDecision (d : VersionDecision) : List Char :=
  "\x7b\"nodeVersion\":".data ++ quoteStr d.nodeVersion ++
    ",\"packageManager\":".data ++ serializePM d.packageManager ++ ['\x7d']

/-- Decoder for one serialized decision. -/
def decodeDecision (l : List Char) : Option (VersionDecision × List Char) :=
  match matchLit "\x7b\"nodeVersion\":".data l with
  | some r1 =>
    match decodeQuoted r1 with
    | some (nv, r2) =>
      match matchLit ",\"packageManager\":".data r2 with
      | some r3 =>
        match decodePM r3 with
        | some (pm, r4) =>
          match r4 with
          | '\x7d' :: r5 => some (⟨nv, pm⟩, r5)
          | _ => none
        | none => none
      | none => none
    | none => none
  | none => none

/-! ## The manifest branch of the orchestrator (part_000 lines 188-311)

One manifest filesystem event is processed as: `watchFile` reads the file
(null on failure) and emits through `distinctUntilChanged`; `partition`
routes null to fileErrors$ (log only); parsed content feeds the
versionChange$ map + serialize-compare `distinctUntilChanged`, whose null
results go to versionErrors$ (log only) and whose decisions drive
storeChanges$ (reprovision and restart of everything downstream, including
the dev server).  The step function below is that event-processing chain;
the `parse` parameter stands for `JSON.parse` + the zod schema. -/

/-- `JSON.stringify` of a versionChange$ element (`null` or a decision). -/
def serializeOpt : Option VersionDecision → List Char
  | none => "null".data
  | some d => serializeDecision d

/-- The versionChange$ map stage (part_000 lines 224-229):
`nodeVersion && packageManager ? \x7b nodeVersion, packageManager \x7d : null`
(`packageManager` is always an object, hence always truthy; a hypothetical
empty `nodeVersion` string would be falsy). -/
def resolveDecision (pv : String → Option String) (pj : PackageJson) :
    Option VersionDecision :=
  match determineNodeVersion pv pj with
  | some nv =>
    if nv = "" then none else some ⟨nv, determinePackageManager pv pj⟩
  | none => none

/-- The externally visible outcome of processing one manifest event. -/
inductive ManifestEffect
  | nothing
  | logDestroyed
  | logUnparsable
  | logUnresolvable
  | provisionAndRestart (d : VersionDecision)
deriving DecidableEq

/-- The dedup memories of the manifest branch: the last emission of
`watchFile(packageJsonPath)`s `distinctUntilChanged`, and the last emission
of versionChange$'s serialize-comparing `distinctUntilChanged`. -/
structure ManifestPipelineState where
  watchLast : Option (Option String)
  vcLast : Option (Option VersionDecision)
deriving DecidableEq

/-- Processing of one manifest read result by the part_000 pipeline. -/
def manifestEventStep (pv : String → Option String)
    (parse : String → Option PackageJson) (st : ManifestPipelineState)
    (readResult : Option String) : ManifestPipelineState × ManifestEffect :=
  if st.watchLast = some readResult then (st, .nothing)
  else
    let st1 : ManifestPipelineState := ⟨some readResult, st.vcLast⟩
    match readResult with
    | none => (st1, .logDestroyed)
    | some content =>
      match parse content with
      | none => (st1, .logUnparsable)
      | some pj =>
        let r := resolveDecision pv pj
        match st.vcLast with
        | some prev =>
          if serializeOpt prev = serializeOpt r then (st1, .nothing)
          else (⟨some readResult, some r⟩,
            match r with
            | none => .logUnresolvable
            | some d => .provisionAndRestart d)
        | none => (⟨some readResult, some r⟩,
            match r with
            | none => .logUnresolvable
            | some d => .provisionAndRestart d)

/-- Manifest used by the C5 witness: `engines.node = "1.2.3"`,
`engines.npm = ""` (falsy, hence skipped — bundled npm). -/
def c5pj1 : PackageJson := ⟨none, some ⟨some "1.2.3", some "", none, none⟩⟩

/-- Manifest used by the C5 witness: same decision, different content
(`engines.npm` absent instead of empty). -/
def c5pj2 : PackageJson := ⟨none, some ⟨some "1.2.3", none, none, none⟩⟩

/-- A two-manifest filesystem for the C5 witness. -/
def c5parse (s : String) : Option PackageJson :=
  if s = "m1" then some c5pj1 else if s = "m2" then some c5pj2 else none

/-! ## Claim C4: one lockfile change, one reinstall-then-restart cycle

part_000 lines 290-327: lockfileChanges$ is `watchFile(lockfilePath)`
(content read, `distinctUntilChanged`) switch-mapped into
`concat(spawnProcess(install), spawnProcess(run dev))`; a new emission
cancels the previous inner observable (killing its active child) and starts
one new install+run cycle.  Version resolution and provisioning live in the
manifest branch and are not subscribed to lockfile events at all.
rundev.ts lines 282-298: `watchFile`'s callback compares `current.size` with
`previous.size` and only then kills the dev server, reinstalls and
relaunches. -/

/-- Actions the process-supervision stage can take on one lockfile event. -/
inductive SupervisionAction
  | killDevServer
  | runInstall
  | startDevServer
  | resolveVersions
  | provision
deriving DecidableEq

/-- One lockfile read processed by the part_000 lockfile stage: `st` is the
`distinctUntilChanged` memory of `watchFile(lockfile)`, `active` whether an
install/run cycle (and hence a child process) is currently live.  On a
changed observation, switchMap tears the previous cycle down and `concat`
runs install then the dev server. -/
def lockfileEventStep (st : Option (Option String)) (active : Bool)
    (readResult : Option String) :
    Option (Option String) × List SupervisionAction :=
  if st = some readResult then (st, [])
  else (some readResult,
    (if active then [.killDevServer] else []) ++ [.runInstall, .startDevServer])

/-- The slice of `fs.Stats` rundev.ts consults. -/
structure Stats where
  size : Nat
deriving DecidableEq

/-- rundev.ts `watchFile` callback (lines 282-298): on a size change, kill
the dev server, reinstall dependencies, restart the dev server; otherwise do
nothing. -/
def watchFileCallback (current previous : Stats) : List SupervisionAction :=
  if current.size ≠ previous.size then
    [.killDevServer, .runInstall, .startDevServer]
  else []

/-! ## Claim C10: getRegistry (rundev.ts lines 116-131)

`getRegistry` is
`JSON.parse(await fs.readFile(REGISTRY_PATH).catch(() => DEFAULT_REGISTRY))`:
the `.catch` guards only the read.  `JSON.parse` is modelled by a small
recursive-descent parser over the JSON value grammar (objects, arrays,
strings with the escapes of `unquote`, numbers, `true`/`false`/`null`;
trailing garbage rejected).  A `JSON.parse` throw is `none`, and
`getRegistry`'s own throw is `Except.error`. -/

/-- A JSON value. -/
inductive Json
  | jnull
  | jbool (b : Bool)
  | jnum (text : String)
  | jstr (s : String)
  | jarr (xs : List Json)
  | jobj (fields : List (String × Json))

/-- JSON insignificant whitespace. -/
def skipWs : List Char → List Char
  | c :: r =>
    if c = ' ' ∨ c = '\t' ∨ c = '\n' ∨ c = '\r' then skipWs r else c :: r
  | [] => []

/-- Exponent digits of a JSON number. -/
def parseExpDigits (pre e l : List Char) : Option (List Char × List Char) :=
  match takeDigits l with
  | ([], _) => none
  | (ds, r) => some (pre ++ e ++ ds, r)

/-- Optional exponent sign of a JSON number. -/
def parseExpSign (pre e l : List Char) : Option (List Char × List Char) :=
  match l with
  | '+' :: r => parseExpDigits pre (e ++ ['+']) r
  | '-' :: r => parseExpDigits pre (e ++ ['-']) r
  | _ => parseExpDigits pre e l

/-- Optional exponent of a JSON number. -/
def parseExp (pre l : List Char) : Option (List Char × List Char) :=
  match l with
  | 'e' :: r => parseExpSign pre ['e'] r
  | 'E' :: r => parseExpSign pre ['E'] r
  | _ => some (pre, l)

/-- Unsigned part of a JSON number: digits, optional fraction, optional
exponent. -/
def parseNumCore (l : List Char) : Option (List Char × List Char) :=
  match takeDigits l with
  | ([], _) => none
  | (ds, r1) =>
    match r1 with
    | '.' :: r2 =>
      match takeDigits r2 with
      | ([], _) => none
      | (fs, r3) => parseExp (ds ++ '.' :: fs) r3
    | _ => parseExp ds r1

/-- A JSON number with optional leading minus. -/
def parseNum (l : List Char) : Option (List Char × List Char) :=
  match l with
  | '-' :: r =>
    match parseNumCore r with
    | some (t, r2) => some ('-' :: t, r2)
    | none => none
  | _ => parseNumCore l

mutual

/-- One JSON value (fuelled recursive descent). -/
def parseVal : Nat → List Char → Option (Json × List Char)
  | 0, _ => none
  | fuel + 1, l =>
    match skipWs l with
    | 'n' :: 'u' :: 'l' :: 'l' :: r => some (.jnull, r)
    | 't' :: 'r' :: 'u' :: 'e' :: r => some (.jbool true, r)
    | 'f' :: 'a' :: 'l' :: 's' :: 'e' :: r => some (.jbool false, r)
    | '"' :: r => (unquote r).map fun p => (.jstr (String.mk p.1), p.2)
    | '[' :: r => parseArr fuel r
    | '\x7b' :: r => parseObj fuel r
    | c :: r =>
      if c = '-' ∨ c.isDigit then
        match parseNum (c :: r) with
        | some (t, r2) => some (.jnum (String.mk t), r2)
        | none => none
      else none
    | [] => none

/-- Array body after `[`: empty or first element then tail. -/
def parseArr : Nat → List Char → Option (Json × List Char)
  | 0, _ => none
  | fuel + 1, l =>
    match skipWs l with
    | ']' :: r => some (.jarr [], r)
    | l2 =>
      match parseVal fuel l2 with
      | some (v, r) =>
        match parseArrTail fuel r with
        | some (vs, r2) => some (.jarr (v :: vs), r2)
        | none => none
      | none => none

/-- Array tail: `]` or `,` element repeated. -/
def parseArrTail : Nat → List Char → Option (List Json × List Char)
  | 0, _ => none
  | fuel + 1, l =>
    match skipWs l with
    | ']' :: r => some ([], r)
    | ',' :: r =>
      match parseVal fuel r with
      | some (v, r2) =>
        match parseArrTail fuel r2 with
        | some (vs, r3) => some (v :: vs, r3)
        | none => none
      | none => none
    | _ => none

/-- Object body after the opening brace: empty or first field then tail. -/
def parseObj : Nat → List Char → Option (Json × List Char)
  | 0, _ => none
  | fuel + 1, l =>
    match skipWs l with
    | '\x7d' :: r => some (.jobj [], r)
    | l2 =>
      match parseField fuel l2 with
      | some (f, r) =>
        match parseObjTail fuel r with
        | some (fs, r2) => some (.jobj (f :: fs), r2)
        | none => none
      | none => none

/-- Object tail: closing brace or `,` field repeated. -/
def parseObjTail : Nat → List Char → Option (List (String × Json) × List Char)
  | 0, _ => none
  | fuel + 1, l =>
    match skipWs l with
    | '\x7d' :: r => some ([], r)
    | ',' :: r =>
      match parseField fuel r with
      | some (f, r2) =>
        match parseObjTail fuel r2 with
        | some (fs, r3) => some (f :: fs, r3)
        | none => none
      | none => none
    | _ => none

/-- One `"key": value` field. -/
def parseField : Nat → List Char → Option ((String × Json) × List Char)
  | 0, _ => none
  | fuel + 1, l =>
    match skipWs l with
    | '"' :: r =>
      match unquote r with
      | some (k, r2) =>
        match skipWs r2 with
        | ':' :: r3 =>
          match parseVal fuel r3 with
          | some (v, r4) => some ((String.mk k, v), r4)
          | none => none
        | _ => none
      | none => none
    | _ => none

end

/-- The `JSON.parse` model: parse one value, allow trailing whitespace,
reject trailing garbage; `none` is a `JSON.parse` throw. -/
def jsonParse (s : String) : Option Json :=
  match parseVal (2 * s.length + 2) s.data with
  | some (j, r) => if skipWs r = [] then some j else none
  | none => none

/-- rundev.ts `DEFAULT_REGISTRY` (line 116): the `JSON.stringify` of the
empty registry, spacing-free. -/
def DEFAULT_REGISTRY : String :=
  "\x7b\"nodeVersions\":[],\"packageManagers\":\x7b\"npm\":[],\"yarn\":[],\"pnpm\":[]\x7d\x7d"

/-- rundev.ts `getRegistry` (lines 125-131): the `.catch` applies to the
`readFile` promise only, so a missing or unreadable file (`readResult =
none`) substitutes `DEFAULT_REGISTRY` before parsing, while a present file's
content goes to `JSON.parse` unprotected. -/
def getRegistry (readResult : Option String) : Except Unit Json :=
  match jsonParse (readResult.getD DEFAULT_REGISTRY) with
  | some j => .ok j
  | none => .error ()

/-- The parsed form of `DEFAULT_REGISTRY`. -/
def emptyRegistryJson : Json :=
  .jobj [("nodeVersions", .jarr []),
    ("packageManagers",
      .jobj [("npm", .jarr []), ("yarn", .jarr []), ("pnpm", .jarr [])])]

/-! ## Lemmas and theorems

All proofs about the definitions above: roundtrip and injectivity lemmas,
and the one theorem per claim (with witnesses and counterexamples).  -/

/-- Claim C9: a manifest whose `packageManager` field is `"bun@1.0.0"` makes
`determinePackageManager` return a result named `"bun"` — a value outside the
`PackageManager` type `npm|yarn|pnpm` — and the downstream
`PACKAGE_MANAGERS[name]` lookup used by storeChanges$ yields no entry, so the
resolver's output does not always index safely into the spec table. -/
theorem c9_bun_escapes_package_manager_type :
    determinePackageManager parseVersionModel
        ⟨some "bun@1.0.0", none⟩ = .packageManager "bun" "1.0.0" ∧
    PACKAGE_MANAGERS "bun" = none := by
  constructor
  · rfl
  · rfl

/-- Searching one present-field list is exactly the source's single-field
check. -/
lemma presentField_findSome (pv : String → Option String) (nm : String)
    (f : Option String) :
    (presentField nm f).findSome?
        (fun p => (pv p.2).map fun sv => (p.1, sv)) =
      tryEngineField pv nm f := by
  cases f with
  | none => rfl
  | some s =>
    by_cases hs : s = ""
    · simp [presentField, tryEngineField, hs, List.findSome?]
    · simp only [presentField, tryEngineField, hs, if_false, List.findSome?]
      cases pv s <;> simp

/-- The spec's ordered search over the declared fields is the source's
`engines` fall-through. -/
lemma specFirstDeclared_eq (pv : String → Option String) (pj : PackageJson) :
    specFirstDeclared pv pj = pj.engines.bind (enginesFirst pv) := by
  cases he : pj.engines with
  | none => simp [specFirstDeclared, specDeclaredFields, he]
  | some e =>
    simp only [specFirstDeclared, specDeclaredFields, he, Option.some_bind]
    rw [List.findSome?_append, List.findSome?_append]
    rw [presentField_findSome, presentField_findSome, presentField_findSome]
    unfold enginesFirst
    cases tryEngineField pv "npm" e.npm <;>
      cases tryEngineField pv "yarn" e.yarn <;>
      cases tryEngineField pv "pnpm" e.pnpm <;> rfl

/-- Claim C3: for every manifest and every semver capability, the source's
`determinePackageManager` — a total function, so resolution never fails —
produces exactly the decision of the spec's strict-precedence procedure:
explicit `packageManager` token with parsable version (provenance explicit),
otherwise the first parsable `engines` field in order npm, yarn, pnpm
(provenance declared), otherwise the runtime-bundled npm (provenance
default). -/
theorem c3_package_manager_resolution_follows_spec
    (pv : String → Option String) (pj : PackageJson) :
    toSpecDecision (determinePackageManager pv pj) =
      specResolvePackageManager pv pj := by
  unfold determinePackageManager specResolvePackageManager specExplicitToken
  rw [specFirstDeclared_eq]
  cases hm : pj.packageManager.bind fun s => regexSearch s.data with
  | none =>
    dsimp only
    cases he : pj.engines with
    | none => rfl
    | some e =>
      dsimp only
      simp only [Option.some_bind]
      cases hf : enginesFirst pv e with
      | none => rfl
      | some p => obtain ⟨n', v'⟩ := p; rfl
  | some nv =>
    obtain ⟨n, v⟩ := nv
    simp only [Option.some_bind]
    cases hpv : pv (String.mk v) with
    | some sv => rfl
    | none =>
      cases he : pj.engines with
      | none => rfl
      | some e =>
        dsimp only
        simp only [Option.some_bind]
        cases hf : enginesFirst pv e with
        | none => rfl
        | some p => obtain ⟨n', v'⟩ := p; rfl

/-- Claim C6: for every starting directory and marker predicate, `locate`
returns the first directory in the chain start, dirname(start), … that has
the marker — and errors (`RootNotFound`) exactly when the chain is exhausted,
i.e. when the candidate that is its own parent still lacks the marker. -/
theorem c6_find_project_root_first_ancestor
    (hasMarker : List String → Bool) (start : List String) :
    findProjectRoot hasMarker start =
      match (ancestorChain start).find? hasMarker with
      | some r => .ok r
      | none => .error () := by
  induction start with
  | nil =>
    by_cases h : hasMarker [] <;>
      simp [findProjectRoot, ancestorChain, List.find?, h]
  | cons p rest ih =>
    by_cases h : hasMarker (p :: rest) <;>
      simp [findProjectRoot, ancestorChain, List.find?, h, ih]

/-- Claim C2 (failing input): provisioning node 22.12.0 into an empty
registry while the external download capability fails.  The claim says a
`ProvisionFailed` error reaches the caller and the registry is neither
appended to nor persisted; the code instead swallows the failure inside
`install`'s catch, raises nothing, appends `"22.12.0"` to
`registry.nodeVersions`, and persists that corrupted registry to disk. -/
theorem c2_failed_download_still_persists_registry :
    (ensureNodeVersion .failed "22.12.0" emptyRegistry).1.raised = false ∧
    (ensureNodeVersion .failed "22.12.0" emptyRegistry).1.registry.nodeVersions
      = ["22.12.0"] ∧
    (ensureNodeVersion .failed "22.12.0" emptyRegistry).1.persisted =
      [(ensureNodeVersion .failed "22.12.0" emptyRegistry).1.registry] ∧
    (ensureNodeVersion .failed "22.12.0" emptyRegistry).1.downloads = 1 := by
  refine ⟨rfl, rfl, rfl, rfl⟩

/-- After `installNodeVersion`, the version is recorded. -/
lemma installNodeVersion_contains (outcome : DownloadOutcome)
    (version : String) (reg : Registry) :
    version ∈ (installNodeVersion outcome version reg).registry.nodeVersions := by
  cases outcome <;>
    simp [installNodeVersion, installRT]

/-- After `installPackageManager`, the `(name, version)` pair is recorded. -/
lemma installPackageManager_contains (outcome : DownloadOutcome)
    (name : PackageManager) (version : String) (reg : Registry) :
    version ∈ (installPackageManager outcome name version reg).registry.packageManagers.get
      name := by
  cases outcome <;> cases name <;>
    simp [installPackageManager, installRT, PMVersions.set, PMVersions.get]

/-- Claim C7: provisioning is idempotent.  Two `ensureNodeVersion` calls for
the same version against the same (threaded-through) registry invoke the
download capability at most once in total; likewise two
`ensurePackageManager` calls for the same `(name, version)` spec; and the
default case (`undefined` spec) returns the runtime-bundled npm path with
zero downloads, an unchanged registry, and no persisted write. -/
theorem c7_ensure_idempotent :
    (∀ (o1 o2 : DownloadOutcome) (v : String) (reg : Registry),
      (ensureNodeVersion o1 v reg).1.downloads +
        (ensureNodeVersion o2 v (ensureNodeVersion o1 v reg).1.registry).1.downloads
      ≤ 1) ∧
    (∀ (o1 o2 : DownloadOutcome) (spec : PackageManagerSpecRT)
      (reg : Registry) (nv1 nv2 : String),
      (ensurePackageManager o1 (some spec) reg nv1).1.downloads +
        (ensurePackageManager o2 (some spec)
          (ensurePackageManager o1 (some spec) reg nv1).1.registry nv2).1.downloads
      ≤ 1) ∧
    (∀ (o : DownloadOutcome) (reg : Registry) (nv : String),
      ensurePackageManager o none reg nv =
        (⟨0, reg, [], false⟩, NODE_VERSIONS_PATH ++ [nv, "bin", "npm"])) := by
  refine ⟨?_, ?_, ?_⟩
  · intro o1 o2 v reg
    by_cases h : v ∈ reg.nodeVersions
    · simp [ensureNodeVersion, h]
    · have h2 := installNodeVersion_contains o1 v reg
      simp only [ensureNodeVersion, h, if_neg, if_false, h2, if_true,
        List.elem_eq_mem, decide_eq_true_eq]
      cases o1 <;> simp [installNodeVersion, installRT]
  · intro o1 o2 spec reg nv1 nv2
    by_cases h : spec.version ∈ reg.packageManagers.get spec.name
    · simp [ensurePackageManager, h]
    · have h2 := installPackageManager_contains o1 spec.name spec.version reg
      simp only [ensurePackageManager, h, if_neg, if_false, h2, if_true,
        List.elem_eq_mem, decide_eq_true_eq]
      cases o1 <;> simp [installPackageManager, installRT]
  · intro o reg nv
    rfl

/-- Claim C1 (failing input): the install child process exits with status 1.
The claim says the action terminates as Failed and the dev-server run phase
is never started; in part_000 `spawnProcess` completes its observable on any
exit, so `concat` starts the run phase anyway.  (A spawn failure, by
contrast, does error the observable and suppress the run phase; and
rundev.ts's own `spawnAsync` rejects on the same input, which is the
behaviour the claim and the spec describe.) -/
theorem c1_nonzero_install_exit_still_starts_run_phase :
    concatStartsRunPhase (.exited 1) = true ∧
    concatStartsRunPhase .spawnFailed = false ∧
    spawnAsyncResult (.exited 1) = .rejected := by
  refine ⟨rfl, rfl, rfl⟩

/-- Hex digits below 16 decode back to their value. -/
lemma hexVal_hexDigitChar (k : Nat) (hk : k < 16) :
    hexVal (hexDigitChar k) = k := by
  interval_cases k <;> decide

/-- Unfolding: closing quote. -/
lemma unquote_quote (r : List Char) : unquote ('"' :: r) = some ([], r) := by
  conv_lhs => unfold unquote
  simp

/-- Unfolding: escaped quote. -/
lemma unquote_esc_quote (r : List Char) :
    unquote ('\\' :: '"' :: r) =
      (unquote r).map fun p => ('"' :: p.1, p.2) := by
  conv_lhs => unfold unquote
  simp

/-- Unfolding: escaped backslash. -/
lemma unquote_esc_backslash (r : List Char) :
    unquote ('\\' :: '\\' :: r) =
      (unquote r).map fun p => ('\\' :: p.1, p.2) := by
  conv_lhs => unfold unquote
  simp

/-- Unfolding: escaped backspace. -/
lemma unquote_esc_b (r : List Char) :
    unquote ('\\' :: 'b' :: r) =
      (unquote r).map fun p => ('\x08' :: p.1, p.2) := by
  conv_lhs => unfold unquote
  simp

/-- Unfolding: escaped tab. -/
lemma unquote_esc_t (r : List Char) :
    unquote ('\\' :: 't' :: r) =
      (unquote r).map fun p => ('\t' :: p.1, p.2) := by
  conv_lhs => unfold unquote
  simp

/-- Unfolding: escaped newline. -/
lemma unquote_esc_n (r : List Char) :
    unquote ('\\' :: 'n' :: r) =
      (unquote r).map fun p => ('\n' :: p.1, p.2) := by
  conv_lhs => unfold unquote
  simp

/-- Unfolding: escaped form feed. -/
lemma unquote_esc_f (r : List Char) :
    unquote ('\\' :: 'f' :: r) =
      (unquote r).map fun p => ('\x0c' :: p.1, p.2) := by
  conv_lhs => unfold unquote
  simp

/-- Unfolding: escaped carriage return. -/
lemma unquote_esc_r (r : List Char) :
    unquote ('\\' :: 'r' :: r) =
      (unquote r).map fun p => ('\r' :: p.1, p.2) := by
  conv_lhs => unfold unquote
  simp

/-- Unfolding: `\u00xx` escape. -/
lemma unquote_esc_u (h1 h2 : Char) (r : List Char) :
    unquote ('\\' :: 'u' :: '0' :: '0' :: h1 :: h2 :: r) =
      (unquote r).map fun p =>
        (Char.ofNat (16 * hexVal h1 + hexVal h2) :: p.1, p.2) := by
  conv_lhs => unfold unquote
  simp

/-- Unfolding: a character that is neither a quote nor a backslash is taken
verbatim. -/
lemma unquote_other (c : Char) (r : List Char) (hq : ¬c = '"')
    (hb : ¬c = '\\') :
    unquote (c :: r) = (unquote r).map fun p => (c :: p.1, p.2) := by
  conv_lhs => unfold unquote
  rw [if_neg hq, if_neg hb]

/-- A character the escaper leaves alone. -/
lemma escChar_other (c : Char) (h1 : ¬c = '"') (h2 : ¬c = '\\')
    (h3 : ¬c = '\x08') (h4 : ¬c = '\t') (h5 : ¬c = '\n') (h6 : ¬c = '\x0c')
    (h7 : ¬c = '\r') (h8 : ¬c.toNat < 32) : escChar c = [c] := by
  simp [escChar, h1, h2, h3, h4, h5, h6, h7, h8]

/-- A control character without a short escape. -/
lemma escChar_ctrl (c : Char) (h1 : ¬c = '"') (h2 : ¬c = '\\')
    (h3 : ¬c = '\x08') (h4 : ¬c = '\t') (h5 : ¬c = '\n') (h6 : ¬c = '\x0c')
    (h7 : ¬c = '\r') (h8 : c.toNat < 32) :
    escChar c = ['\\', 'u', '0', '0', hexDigitChar (c.toNat / 16),
      hexDigitChar (c.toNat % 16)] := by
  simp [escChar, h1, h2, h3, h4, h5, h6, h7, h8]

/-- The decoder inverts the escaper: unquoting `escape s` followed by a
closing quote recovers `s` and the rest of the input. -/
lemma unquote_escape (s r : List Char) :
    unquote (escape s ++ '"' :: r) = some (s, r) := by
  induction s with
  | nil => exact unquote_quote r
  | cons c cs ih =>
    show unquote ((escChar c ++ escape cs) ++ '"' :: r) = _
    rw [List.append_assoc]
    by_cases h1 : c = '"'
    · subst h1
      show unquote ('\\' :: '"' :: (escape cs ++ '"' :: r)) = _
      rw [unquote_esc_quote, ih]; rfl
    by_cases h2 : c = '\\'
    · subst h2
      show unquote ('\\' :: '\\' :: (escape cs ++ '"' :: r)) = _
      rw [unquote_esc_backslash, ih]; rfl
    by_cases h3 : c = '\x08'
    · subst h3
      show unquote ('\\' :: 'b' :: (escape cs ++ '"' :: r)) = _
      rw [unquote_esc_b, ih]; rfl
    by_cases h4 : c = '\t'
    · subst h4
      show unquote ('\\' :: 't' :: (escape cs ++ '"' :: r)) = _
      rw [unquote_esc_t, ih]; rfl
    by_cases h5 : c = '\n'
    · subst h5
      show unquote ('\\' :: 'n' :: (escape cs ++ '"' :: r)) = _
      rw [unquote_esc_n, ih]; rfl
    by_cases h6 : c = '\x0c'
    · subst h6
      show unquote ('\\' :: 'f' :: (escape cs ++ '"' :: r)) = _
      rw [unquote_esc_f, ih]; rfl
    by_cases h7 : c = '\r'
    · subst h7
      show unquote ('\\' :: 'r' :: (escape cs ++ '"' :: r)) = _
      rw [unquote_esc_r, ih]; rfl
    by_cases h8 : c.toNat < 32
    · rw [escChar_ctrl c h1 h2 h3 h4 h5 h6 h7 h8]
      show unquote ('\\' :: 'u' :: '0' :: '0' :: hexDigitChar (c.toNat / 16) ::
        hexDigitChar (c.toNat % 16) :: (escape cs ++ '"' :: r)) = _
      rw [unquote_esc_u, ih]
      have hdiv : c.toNat / 16 < 16 := by omega
      have hmod : c.toNat % 16 < 16 := Nat.mod_lt _ (by omega)
      simp only [Option.map_some', hexVal_hexDigitChar _ hdiv,
        hexVal_hexDigitChar _ hmod, Nat.div_add_mod, Char.ofNat_toNat]
    · rw [escChar_other c h1 h2 h3 h4 h5 h6 h7 h8]
      show unquote (c :: (escape cs ++ '"' :: r)) = _
      rw [unquote_other c _ h1 h2, ih]; rfl

/-- Matching a literal prefix consumes exactly it. -/
lemma matchLit_self (p r : List Char) : matchLit p (p ++ r) = some r := by
  induction p with
  | nil => rfl
  | cons c cs ih => simp [matchLit, ih]

/-- Decoding inverts quoting. -/
lemma decodeQuoted_quoteStr (s : String) (rest : List Char) :
    decodeQuoted (quoteStr s ++ rest) = some (s, rest) := by
  show decodeQuoted ('"' :: (escape s.data ++ ['"']) ++ rest) = _
  rw [List.cons_append, List.append_assoc]
  show (unquote (escape s.data ++ ('"' :: rest))).map
      (fun p => (String.mk p.1, p.2)) = _
  rw [unquote_escape]
  rfl

/-- The shared tail decodes its own serialization. -/
lemma decodeTail_roundtrip (mk : String → String → PackageManagerResult)
    (n v : String) (rest : List Char) :
    decodeTail mk (quoteStr n ++ (",\"version\":".data ++
      (quoteStr v ++ ('\x7d' :: rest)))) = some (mk n v, rest) := by
  unfold decodeTail
  simp only [decodeQuoted_quoteStr, matchLit_self]

/-- Decoding inverts `serializePM`. -/
lemma decodePM_roundtrip (pm : PackageManagerResult) (rest : List Char) :
    decodePM (serializePM pm ++ rest) = some (pm, rest) := by
  cases pm with
  | packageManager n v =>
    show decodePM ("\x7b\"type\":\"packageManager\",\"name\":".data ++
      quoteStr n ++ ",\"version\":".data ++ quoteStr v ++ ['\x7d'] ++ rest) = _
    simp only [List.append_assoc, List.singleton_append]
    unfold decodePM
    simp only [matchLit_self]
    exact decodeTail_roundtrip _ n v rest
  | engines n v =>
    show decodePM ("\x7b\"type\":\"engines\",\"name\":".data ++
      quoteStr n ++ ",\"version\":".data ++ quoteStr v ++ ['\x7d'] ++ rest) = _
    simp only [List.append_assoc, List.singleton_append]
    unfold decodePM
    rw [show
        matchLit "\x7b\"type\":\"packageManager\",\"name\":".data
          ("\x7b\"type\":\"engines\",\"name\":".data ++
            (quoteStr n ++ (",\"version\":".data ++
              (quoteStr v ++ ('\x7d' :: rest))))) = none from rfl]
    simp only [matchLit_self]
    exact decodeTail_roundtrip _ n v rest
  | bundled n =>
    show decodePM ("\x7b\"type\":\"bundled\",\"name\":".data ++
      quoteStr n ++ ['\x7d'] ++ rest) = _
    simp only [List.append_assoc, List.singleton_append]
    unfold decodePM
    rw [show
        matchLit "\x7b\"type\":\"packageManager\",\"name\":".data
          ("\x7b\"type\":\"bundled\",\"name\":".data ++
            (quoteStr n ++ ('\x7d' :: rest))) = none from rfl]
    rw [show
        matchLit "\x7b\"type\":\"engines\",\"name\":".data
          ("\x7b\"type\":\"bundled\",\"name\":".data ++
            (quoteStr n ++ ('\x7d' :: rest))) = none from rfl]
    simp only [matchLit_self, decodeQuoted_quoteStr]

/-- Decoding inverts `serializeDecision`. -/
lemma decodeDecision_roundtrip (d : VersionDecision) (rest : List Char) :
    decodeDecision (serializeDecision d ++ rest) = some (d, rest) := by
  obtain ⟨nv, pm⟩ := d
  show decodeDecision ("\x7b\"nodeVersion\":".data ++ quoteStr nv ++
    ",\"packageManager\":".data ++ serializePM pm ++ ['\x7d'] ++ rest) = _
  simp only [List.append_assoc, List.singleton_append]
  unfold decodeDecision
  simp only [matchLit_self, decodeQuoted_quoteStr, decodePM_roundtrip]

/-- The serialization is injective: equal `JSON.stringify` forms mean equal
decisions. -/
lemma serializeDecision_inj (d1 d2 : VersionDecision)
    (h : serializeDecision d1 = serializeDecision d2) : d1 = d2 := by
  have h1 := decodeDecision_roundtrip d1 []
  have h2 := decodeDecision_roundtrip d2 []
  rw [h] at h1
  rw [h2] at h1
  injection h1 with h3
  injection h3 with h4 h5
  exact h4.symm

/-- Claim C5: two decisions are `JSON.stringify`-equal exactly when they are
equal (the comparator of versionChange$'s `distinctUntilChanged` is value
equality); consequently, for two different manifest contents that resolve to
equal decisions, processing the second right after the first produces no
effect at all — no reprovisioning and no process restart. -/
theorem c5_serialize_equality_suppresses_duplicates :
    (∀ d1 d2 : VersionDecision,
      serializeDecision d1 = serializeDecision d2 ↔ d1 = d2) ∧
    (∀ (pv : String → Option String) (parse : String → Option PackageJson)
      (st : ManifestPipelineState) (m1 m2 : String) (pj1 pj2 : PackageJson),
      m1 ≠ m2 → parse m1 = some pj1 → parse m2 = some pj2 →
      resolveDecision pv pj1 = resolveDecision pv pj2 →
      st.watchLast ≠ some (some m1) →
      (manifestEventStep pv parse
        (manifestEventStep pv parse st (some m1)).1 (some m2)).2 =
        ManifestEffect.nothing) := by
  constructor
  · intro d1 d2
    exact ⟨serializeDecision_inj d1 d2, fun h => by rw [h]⟩
  · intro pv parse st m1 m2 pj1 pj2 hm hp1 hp2 hr hw
    unfold manifestEventStep
    rw [if_neg hw]
    simp only [hp1]
    have hm2 : ¬(some (some m1) : Option (Option String)) = some (some m2) := by
      simp [hm]
    cases hvc : st.vcLast with
    | none =>
      simp only [hvc]
      rw [if_neg hm2]
      simp only [hp2, hr]
      simp
    | some prev =>
      simp only [hvc]
      by_cases hs : serializeOpt prev = serializeOpt (resolveDecision pv pj1)
      · rw [if_pos hs]
        simp only [hvc]
        rw [if_neg hm2]
        simp only [hp2]
        rw [if_pos (hr ▸ hs)]
      · rw [if_neg hs]
        simp only
        rw [if_neg hm2]
        simp only [hp2, hr]
        simp

/-- Witness for C5: two concrete different manifest contents resolving to
the same decision (`node 1.2.3`, bundled npm); the second event produces no
provisioning and no restart. -/
theorem c5_witness :
    (manifestEventStep parseVersionModel c5parse
      (manifestEventStep parseVersionModel c5parse ⟨none, none⟩
        (some "m1")).1 (some "m2")).2 = ManifestEffect.nothing :=
  c5_serialize_equality_suppresses_duplicates.2 parseVersionModel c5parse
    ⟨none, none⟩ "m1" "m2" c5pj1 c5pj2 (by decide)
    (by rfl) (by rfl) (by rfl) (by simp)

/-- Claim C8: a null manifest read (file unreadable or absent) is routed to
the error branch: the step only logs `package.json in project root was
destroyed` (or is suppressed entirely when the previous emission was already
null), the version-decision memory — and with it everything provisioned
downstream — is untouched, and the effect is never the
provision-and-restart that tears down a running dev server. -/
theorem c8_null_manifest_read_only_logs (pv : String → Option String)
    (parse : String → Option PackageJson) (st : ManifestPipelineState) :
    (manifestEventStep pv parse st none).1.vcLast = st.vcLast ∧
    (manifestEventStep pv parse st none).2 =
      (if st.watchLast = some none then .nothing else .logDestroyed) ∧
    ∀ d, (manifestEventStep pv parse st none).2 ≠
      ManifestEffect.provisionAndRestart d := by
  unfold manifestEventStep
  by_cases h : st.watchLast = some none
  · rw [if_pos h]
    refine ⟨rfl, by rw [if_pos h], by intro d h2; exact absurd h2 (by simp)⟩
  · rw [if_neg h]
    refine ⟨rfl, by rw [if_neg h], by intro d h2; exact absurd h2 (by simp)⟩

/-- Claim C4 (counterexample): a lockfile change event that rewrites the
content from `"a"` to `"b"` keeps the size at 1, so rundev.ts's watcher
performs zero reinstall-then-restart cycles where the claim demands exactly
one. -/
theorem c4_counterexample_same_size_change :
    ("a" ≠ "b" ∧ "a".length = 1 ∧ "b".length = 1) ∧
    watchFileCallback ⟨1⟩ ⟨1⟩ = [] ∧
    ¬(watchFileCallback ⟨1⟩ ⟨1⟩).count SupervisionAction.runInstall = 1 := by
  refine ⟨⟨by decide, rfl, rfl⟩, rfl, by decide⟩

/-- Claim C4 (amended): a lockfile change event that changes the watched
observation — the content in the part_000 pipeline, the size in rundev.ts's
watcher — triggers exactly one reinstall-then-restart cycle (one install, one
relaunch, and a kill of the previous dev server exactly when one is live)
and never re-runs version resolution or provisioning; an event that leaves
the observation unchanged triggers nothing. -/
theorem c4_changed_lockfile_one_cycle :
    (∀ (st : Option (Option String)) (active : Bool) (c : Option String),
      st ≠ some c →
      (lockfileEventStep st active c).2.count .runInstall = 1 ∧
      (lockfileEventStep st active c).2.count .startDevServer = 1 ∧
      (lockfileEventStep st active c).2.count .killDevServer =
        (if active then 1 else 0) ∧
      SupervisionAction.resolveVersions ∉ (lockfileEventStep st active c).2 ∧
      SupervisionAction.provision ∉ (lockfileEventStep st active c).2) ∧
    (∀ st active c, st = some c → (lockfileEventStep st active c).2 = []) ∧
    (∀ current previous : Stats, current.size ≠ previous.size →
      (watchFileCallback current previous).count .runInstall = 1 ∧
      (watchFileCallback current previous).count .startDevServer = 1 ∧
      (watchFileCallback current previous).count .killDevServer = 1 ∧
      SupervisionAction.resolveVersions ∉ watchFileCallback current previous ∧
      SupervisionAction.provision ∉ watchFileCallback current previous) ∧
    (∀ current previous : Stats, current.size = previous.size →
      watchFileCallback current previous = []) := by
  refine ⟨?_, ?_, ?_, ?_⟩
  · intro st active c h
    unfold lockfileEventStep
    rw [if_neg h]
    cases active <;> simp [List.count_cons, List.count_nil]
  · intro st active c h
    unfold lockfileEventStep
    rw [if_pos h]
  · intro current previous h
    unfold watchFileCallback
    rw [if_pos h]
    simp [List.count_cons, List.count_nil]
  · intro current previous h
    unfold watchFileCallback
    simp [h]

/-- Witness for the amended C4: a concrete changed content (part_000) and a
concrete size change (rundev.ts), each yielding exactly one cycle. -/
theorem c4_witness :
    ((lockfileEventStep (some (some "a")) true (some "b")).2.count
        SupervisionAction.runInstall = 1 ∧
      (lockfileEventStep (some (some "a")) true (some "b")).2.count
        SupervisionAction.startDevServer = 1) ∧
    ((watchFileCallback ⟨2⟩ ⟨1⟩).count SupervisionAction.runInstall = 1 ∧
      watchFileCallback ⟨1⟩ ⟨1⟩ = []) :=
  ⟨⟨(c4_changed_lockfile_one_cycle.1 (some (some "a")) true (some "b")
      (by decide)).1,
    (c4_changed_lockfile_one_cycle.1 (some (some "a")) true (some "b")
      (by decide)).2.1⟩,
   ⟨(c4_changed_lockfile_one_cycle.2.2.1 ⟨2⟩ ⟨1⟩ (by decide)).1,
    c4_changed_lockfile_one_cycle.2.2.2 ⟨1⟩ ⟨1⟩ rfl⟩⟩

/-- Claim C10: a missing or unreadable registry file yields the parsed empty
default registry, but a present file whose content does not parse as JSON
makes `getRegistry` throw (`Except.error`) instead of returning the default. -/
theorem c10_get_registry_default_on_missing_error_on_invalid :
    getRegistry none = .ok emptyRegistryJson ∧
    (∀ s : String, jsonParse s = none → getRegistry (some s) = .error ()) := by
  constructor
  · rfl
  · intro s h
    unfold getRegistry
    simp only [Option.getD_some, h]

/-- Witness for C10: the concrete content `not json` exists but does not
parse, so `getRegistry` throws rather than returning the default. -/
theorem c10_witness :
    jsonParse "not json" = none ∧
    getRegistry (some "not json") = Except.error () :=
  ⟨rfl, c10_get_registry_default_on_missing_error_on_invalid.2 "not json" rfl⟩

end Rundev
